import Mathlib

/-!
Shallow embedding of the prompt-chaining document agent
(src/agents/extractor.py, structurer.py, summarizer.py, validator.py,
src/llm_client.py, src/main.py, src/app.py).

JSON values are modelled by `JVal` (numbers as rationals).  Python
exceptions are modelled by `Except Err`.  The OpenAI chat API, the
`json.loads` / `json.dumps` library functions, the static prompt files
and the JSON-schema checks (`jsonschema.validate` against the schema
files of the repository) are modelled as an abstract environment `Env`;
each stage run function additionally returns the number of
`chat_completion` calls it performed.
-/

namespace DocAgent

/-- A JSON value, as produced by Python json.loads. -/
inductive JVal where
  | jnull
  | jbool (b : Bool)
  | jnum (q : ℚ)
  | jstr (s : String)
  | jarr (xs : List JVal)
  | jobj (fields : List (String × JVal))

/-- Python exceptions the embedded code can raise. -/
inductive Err where
  | valueError (msg : String)
  | typeError
  | jsonDecodeError
  | schemaError
deriving DecidableEq

/-- A chat message, role and content. -/
structure Msg where
  role : String
  content : String
deriving DecidableEq

/-- The OpenAI client object (src/llm_client.py). -/
structure Client where
  apiKey : String
deriving DecidableEq

/-- The config dict loaded from config.yaml: only the keys the agents read
(model, temperature, max_tokens), each `none` when absent. -/
structure Config where
  model : Option String := none
  temperature : Option ℚ := none
  maxTokens : Option Nat := none

/-- Model of Python str.strip on the character list: drop whitespace from
the front, then from the back. -/
def stripChars (l : List Char) : List Char :=
  (l.dropWhile Char.isWhitespace).rdropWhile Char.isWhitespace

/-- Model of Python str.strip. -/
def pyStrip (s : String) : String :=
  ⟨stripChars s.data⟩

/-- Model of Python len() on strings (code points). -/
def pyLen (s : String) : Nat :=
  s.data.length

/-- Model of the Python slice s[:n]. -/
def pyTake (s : String) (n : Nat) : String :=
  ⟨s.data.take n⟩

/-- Python dict.get(key): `none` when the key is absent. -/
def jget (v : JVal) (key : String) : Option JVal :=
  match v with
  | .jobj fields => fields.lookup key
  | _ => none

/-- `isinstance(v, dict)`. -/
def isObj : JVal → Bool
  | .jobj _ => true
  | _ => false

/-- Python iteration `for x in v`: lists yield their elements, strings
their characters, dicts their keys; other values raise TypeError. -/
def pyIterList : JVal → Except Err (List JVal)
  | .jarr xs => .ok xs
  | .jstr s => .ok (s.data.map (fun c => .jstr ⟨[c]⟩))
  | .jobj fields => .ok (fields.map (fun kv => .jstr kv.1))
  | _ => .error .typeError

/-- The loop of `_clean_list` (src/agents/summarizer.py, validator.py) and
of the bullet loop in `_normalize_outline`: keep strings, strip, drop
empties and entries already seen. -/
def cleanGo : List JVal → List String → List String
  | [], _ => []
  | .jstr s :: rest, seen =>
    if pyStrip s = "" ∨ pyStrip s ∈ seen then cleanGo rest seen
    else pyStrip s :: cleanGo rest (pyStrip s :: seen)
  | _ :: rest, seen => cleanGo rest seen

/-- `_clean_list` of src/agents/summarizer.py and src/agents/validator.py. -/
def clean_list (values : List JVal) : List String :=
  cleanGo values []

/-- The length cap of `_normalize_facts`: `if len(text) > 140: text = text[:140]`. -/
def capFact (t : String) : String :=
  if pyLen t > 140 then pyTake t 140 else t

/-- The loop of `_normalize_facts` (src/agents/extractor.py): keep strings,
strip, drop empties, cap at 140 characters, drop entries already seen. -/
def normFactsGo : List JVal → List String → List String
  | [], _ => []
  | .jstr s :: rest, seen =>
    if pyStrip s = "" then normFactsGo rest seen
    else if capFact (pyStrip s) ∈ seen then normFactsGo rest seen
    else capFact (pyStrip s) :: normFactsGo rest (capFact (pyStrip s) :: seen)
  | _ :: rest, seen => normFactsGo rest seen

/-- `_normalize_facts` of src/agents/extractor.py. -/
def normalize_facts (facts : List JVal) : List String :=
  normFactsGo facts []

/-- The value the extractor keeps for one parsed entry, `none` when the
entry is dropped: non-strings and whitespace-only strings are dropped,
kept strings are stripped then capped at 140 characters. -/
def procFact : JVal → Option String
  | .jstr s => if pyStrip s = "" then none else some (capFact (pyStrip s))
  | _ => none

/-- Deduplication keeping the first occurrence, in order. -/
def dedupFirstGo : List String → List String → List String
  | [], _ => []
  | x :: xs, seen =>
    if x ∈ seen then dedupFirstGo xs seen
    else x :: dedupFirstGo xs (x :: seen)

/-- Deduplication keeping the first occurrence of each string. -/
def dedupFirst (l : List String) : List String :=
  dedupFirstGo l []

/-- Invariant of every `_clean_list` result: no duplicates, and every
entry is a stripped non-empty string. -/
def cleanInv (l : List String) : Prop :=
  l.Nodup ∧ ∀ t ∈ l, pyStrip t = t ∧ t ≠ ""

/-- One outline section after normalization. -/
structure OSection where
  heading : String
  bullets : List String
deriving DecidableEq

/-- A normalized outline. -/
structure Outline where
  title : String
  sections : List OSection
deriving DecidableEq

/-- Invariant of every section kept by `_normalize_outline`: the heading
is stripped, the bullets satisfy the `_clean_list` invariant, and the
heading or the bullet list is non-empty. -/
def secInv (o : OSection) : Prop :=
  pyStrip o.heading = o.heading ∧ cleanInv o.bullets ∧ (o.heading ≠ "" ∨ o.bullets ≠ [])

/-- `section.get("heading", "")` coerced to a string as the structurer
does: an absent key or a non-string value becomes the empty string. -/
def secHeadingSrc (sec : JVal) : String :=
  match jget sec "heading" with
  | some (.jstr h) => h
  | _ => ""

/-- The stripped heading of one raw section. -/
def secHeading (sec : JVal) : String :=
  pyStrip (secHeadingSrc sec)

/-- The cleaned bullets of one raw section: `section.get("bullets", [])`
cleaned when it is a list, empty otherwise. -/
def secBullets (sec : JVal) : List String :=
  match (jget sec "bullets").getD (.jarr []) with
  | .jarr bs => clean_list bs
  | _ => []

/-- The section loop of `_normalize_outline` (src/agents/structurer.py):
skip non-dicts, strip the heading, clean the bullets, keep the section
when the heading or the bullet list is non-empty. -/
def normSections : List JVal → List OSection
  | [] => []
  | .jobj fs :: rest =>
    if secHeading (.jobj fs) ≠ "" ∨ secBullets (.jobj fs) ≠ [] then
      ⟨secHeading (.jobj fs), secBullets (.jobj fs)⟩ :: normSections rest
    else normSections rest
  | _ :: rest => normSections rest

/-- `data.get("title")` coerced to a string as the structurer does. -/
def outlineTitleSrc (data : JVal) : String :=
  match jget data "title" with
  | some (.jstr s) => s
  | _ => ""

/-- `_normalize_outline` of src/agents/structurer.py. -/
def normalize_outline (data : JVal) : Outline :=
  ⟨pyStrip (outlineTitleSrc data),
   match (jget data "sections").getD (.jarr []) with
   | .jarr secs => normSections secs
   | _ => []⟩

/-- A normalized summary. -/
structure Summary where
  tldr : String
  key_points : List String
  risks : List String
  recommendations : List String
deriving DecidableEq

/-- `data.get("tldr", "")` coerced to a string as the summarizer does. -/
def tldrSrc (data : JVal) : String :=
  match jget data "tldr" with
  | some (.jstr s) => s
  | _ => ""

/-- `_normalize_summary` of src/agents/summarizer.py; `_clean_list`
iterates whatever `data.get` returned, so a non-iterable field raises
TypeError. -/
def normalize_summary (data : JVal) : Except Err Summary := do
  let keyPoints ← (pyIterList ((jget data "key_points").getD (.jarr []))).map clean_list
  let risks ← (pyIterList ((jget data "risks").getD (.jarr []))).map clean_list
  let recommendations ← (pyIterList ((jget data "recommendations").getD (.jarr []))).map clean_list
  return ⟨pyStrip (tldrSrc data), keyPoints, risks, recommendations⟩

/-- A normalized validation report. -/
structure Validation where
  coverage_score : ℚ
  unsupported_claims : List String
  missing_topics : List String
  issues : List String
deriving DecidableEq

/-- `isinstance(x, (int, float))` applied to `data.get("coverage_score")`,
followed by `float(x)`: Python booleans count as ints (True is 1); any
other non-number, and an absent key, give 0. -/
def asPyNumber : Option JVal → ℚ
  | some (.jnum q) => q
  | some (.jbool b) => if b then 1 else 0
  | _ => 0

/-- `_normalize_validation` of src/agents/validator.py: the clamp
`max(0, min(100, float(coverage_score)))` and the three cleaned lists. -/
def normalize_validation (data : JVal) : Except Err Validation := do
  let unsupported ← (pyIterList ((jget data "unsupported_claims").getD (.jarr []))).map clean_list
  let missing ← (pyIterList ((jget data "missing_topics").getD (.jarr []))).map clean_list
  let issues ← (pyIterList ((jget data "issues").getD (.jarr []))).map clean_list
  return ⟨max 0 (min 100 (asPyNumber (jget data "coverage_score"))), unsupported, missing, issues⟩

/-- The result dict `{"facts": facts}` built by run_extractor. -/
def encodeFacts (facts : List String) : JVal :=
  .jobj [("facts", .jarr (facts.map .jstr))]

/-- The dict form of one outline section. -/
def encodeSection (s : OSection) : JVal :=
  .jobj [("heading", .jstr s.heading), ("bullets", .jarr (s.bullets.map .jstr))]

/-- The dict returned by `_normalize_outline`. -/
def encodeOutline (o : Outline) : JVal :=
  .jobj [("title", .jstr o.title), ("sections", .jarr (o.sections.map encodeSection))]

/-- The dict returned by `_normalize_summary`. -/
def encodeSummary (s : Summary) : JVal :=
  .jobj [("tldr", .jstr s.tldr),
         ("key_points", .jarr (s.key_points.map .jstr)),
         ("risks", .jarr (s.risks.map .jstr)),
         ("recommendations", .jarr (s.recommendations.map .jstr))]

/-- The dict returned by `_normalize_validation`. -/
def encodeValidation (v : Validation) : JVal :=
  .jobj [("coverage_score", .jnum v.coverage_score),
         ("unsupported_claims", .jarr (v.unsupported_claims.map .jstr)),
         ("missing_topics", .jarr (v.missing_topics.map .jstr)),
         ("issues", .jarr (v.issues.map .jstr))]

/-- The world the agents run in: the OPENAI_API_KEY environment variable,
json.loads (`none` models a JSONDecodeError), json.dumps, the chat API
(arguments: client, model, messages, temperature, max_tokens), the four
static prompt files and the four schema checks (jsonschema.validate
against the schema files, `false` modelling the ValidationError raise). -/
structure Env where
  apiKey : Option String
  parse : String → Option JVal
  dumps : JVal → String
  chat : Client → String → List Msg → ℚ → Nat → String
  extractPrompt : String
  structurePrompt : String
  summarizePrompt : String
  validatePrompt : String
  factsSchema : JVal → Bool
  outlineSchema : JVal → Bool
  summarySchema : JVal → Bool
  validationSchema : JVal → Bool

/-- `get_client_from_env_and_config` of src/llm_client.py: raises
ValueError when OPENAI_API_KEY is unset or empty (`not api_key`). -/
def get_client_from_env_and_config (_config : Config) (apiKey : Option String) :
    Except Err Client :=
  match apiKey with
  | none => .error (.valueError "OPENAI_API_KEY is not set.")
  | some k => if k = "" then .error (.valueError "OPENAI_API_KEY is not set.") else .ok ⟨k⟩

/-- The repair-shape fragment of the extractor repair prompt. -/
def extractShape : String :=
  "\x7b\"facts\":[...]\x7d"

/-- The repair-shape fragment of the structurer repair prompt. -/
def structureShape : String :=
  "\x7b\"title\":\"...\",\"sections\":[\x7b\"heading\":\"...\",\"bullets\":[...]\x7d]\x7d"

/-- The repair-shape fragment of the summarizer repair prompt. -/
def summarizeShape : String :=
  "\x7b\"tldr\":\"...\",\"key_points\":[...],\"risks\":[...],\"recommendations\":[...]\x7d"

/-- The repair-shape fragment of the validator repair prompt. -/
def validateShape : String :=
  "\x7b\"coverage_score\":0,\"unsupported_claims\":[],\"missing_topics\":[],\"issues\":[]\x7d"

/-- The two repair messages each stage sends on a parse failure. -/
def repairMessages (shapeHint raw : String) : List Msg :=
  [⟨"system", "Return valid JSON only. No markdown or explanation."⟩,
   ⟨"user", "Fix this into valid JSON with shape " ++ shapeHint
     ++ " only.\n\nContent:\n" ++ raw⟩]

/-- `_parse_json_or_repair`, identical in all four agent files up to the
shape hint: try json.loads; on failure re-prompt the API once at
temperature 0 and parse the repaired text, letting a second failure
propagate.  The second component counts chat_completion calls. -/
def parse_json_or_repair (shapeHint : String) (env : Env) (config : Config)
    (raw : String) : Except Err JVal × Nat :=
  match env.parse raw with
  | some v => (.ok v, 0)
  | none =>
    match get_client_from_env_and_config config env.apiKey with
    | .error e => (.error e, 0)
    | .ok client =>
      let repaired := env.chat client (config.model.getD "gpt-4.1-mini")
        (repairMessages shapeHint raw) 0 (config.maxTokens.getD 1200)
      match env.parse repaired with
      | some v => (.ok v, 1)
      | none => (.error .jsonDecodeError, 1)

/-- The tail of run_extractor after parsing: the dict / facts-key check,
normalization, and schema validation. -/
def extractorFinish (env : Env) (data : JVal) : Except Err JVal :=
  match data with
  | .jobj fields =>
    if (fields.lookup "facts").isSome then
      match pyIterList ((fields.lookup "facts").getD (.jarr [])) with
      | .error e => .error e
      | .ok items =>
        let result := encodeFacts (normalize_facts items)
        if env.factsSchema result then .ok result else .error .schemaError
    else .error (.valueError "Extractor output missing facts key.")
  | _ => .error (.valueError "Extractor output missing facts key.")

/-- `run_extractor` of src/agents/extractor.py. -/
def run_extractor (env : Env) (config : Config) (text : String) :
    Except Err JVal × Nat :=
  match get_client_from_env_and_config config env.apiKey with
  | .error e => (.error e, 0)
  | .ok client =>
    let messages : List Msg := [⟨"system", env.extractPrompt⟩, ⟨"user", text⟩]
    let raw := env.chat client (config.model.getD "gpt-4.1-mini") messages
      (config.temperature.getD (1/5)) (config.maxTokens.getD 1200)
    match parse_json_or_repair extractShape env config raw with
    | (.error e, n) => (.error e, n + 1)
    | (.ok data, n) => (extractorFinish env data, n + 1)

/-- The tail of run_structurer after parsing: the dict check,
normalization, and schema validation. -/
def structurerFinish (env : Env) (data : JVal) : Except Err JVal :=
  match data with
  | .jobj _ =>
    let outline := encodeOutline (normalize_outline data)
    if env.outlineSchema outline then .ok outline else .error .schemaError
  | _ => .error (.valueError "Structurer output is not a JSON object.")

/-- `run_structurer` of src/agents/structurer.py. -/
def run_structurer (env : Env) (config : Config) (facts : JVal) :
    Except Err JVal × Nat :=
  match get_client_from_env_and_config config env.apiKey with
  | .error e => (.error e, 0)
  | .ok client =>
    let messages : List Msg := [⟨"system", env.structurePrompt⟩, ⟨"user", env.dumps facts⟩]
    let raw := env.chat client (config.model.getD "gpt-4.1-mini") messages
      (config.temperature.getD (1/5)) (config.maxTokens.getD 1200)
    match parse_json_or_repair structureShape env config raw with
    | (.error e, n) => (.error e, n + 1)
    | (.ok data, n) => (structurerFinish env data, n + 1)

/-- The tail of run_summarizer after parsing. -/
def summarizerFinish (env : Env) (data : JVal) : Except Err JVal :=
  match data with
  | .jobj _ =>
    match normalize_summary data with
    | .error e => .error e
    | .ok s =>
      let summary := encodeSummary s
      if env.summarySchema summary then .ok summary else .error .schemaError
  | _ => .error (.valueError "Summarizer output is not a JSON object.")

/-- `run_summarizer` of src/agents/summarizer.py. -/
def run_summarizer (env : Env) (config : Config) (outline : JVal) :
    Except Err JVal × Nat :=
  match get_client_from_env_and_config config env.apiKey with
  | .error e => (.error e, 0)
  | .ok client =>
    let messages : List Msg := [⟨"system", env.summarizePrompt⟩, ⟨"user", env.dumps outline⟩]
    let raw := env.chat client (config.model.getD "gpt-4.1-mini") messages
      (config.temperature.getD (1/5)) (config.maxTokens.getD 1200)
    match parse_json_or_repair summarizeShape env config raw with
    | (.error e, n) => (.error e, n + 1)
    | (.ok data, n) => (summarizerFinish env data, n + 1)

/-- The tail of run_validator after parsing. -/
def validatorFinish (env : Env) (data : JVal) : Except Err JVal :=
  match data with
  | .jobj _ =>
    match normalize_validation data with
    | .error e => .error e
    | .ok v =>
      let validation := encodeValidation v
      if env.validationSchema validation then .ok validation else .error .schemaError
  | _ => .error (.valueError "Validator output is not a JSON object.")

/-- `run_validator` of src/agents/validator.py: its chat input is the
payload combining facts, outline and summary. -/
def run_validator (env : Env) (config : Config) (facts outline summary : JVal) :
    Except Err JVal × Nat :=
  match get_client_from_env_and_config config env.apiKey with
  | .error e => (.error e, 0)
  | .ok client =>
    let payload : JVal := .jobj [("facts", facts), ("outline", outline), ("summary", summary)]
    let messages : List Msg := [⟨"system", env.validatePrompt⟩, ⟨"user", env.dumps payload⟩]
    let raw := env.chat client (config.model.getD "gpt-4.1-mini") messages
      (config.temperature.getD (1/5)) (config.maxTokens.getD 1200)
    match parse_json_or_repair validateShape env config raw with
    | (.error e, n) => (.error e, n + 1)
    | (.ok data, n) => (validatorFinish env data, n + 1)

/-- The four stage outputs, keyed as in main.py / app.py. -/
structure Outputs where
  facts : JVal
  outline : JVal
  summary : JVal
  validation : JVal

/-- `validate_outputs` of src/main.py and src/app.py: re-validate every
output against its schema. -/
def validate_outputs (env : Env) (o : Outputs) : Except Err Unit :=
  if env.factsSchema o.facts then
    if env.outlineSchema o.outline then
      if env.summarySchema o.summary then
        if env.validationSchema o.validation then .ok ()
        else .error .schemaError
      else .error .schemaError
    else .error .schemaError
  else .error .schemaError

/-- `write_outputs` of src/main.py and src/app.py.  The file system is
modelled by the list of (path, written JSON document) pairs; the second
component is the list of paths the function returns. -/
def write_outputs (outputs : Outputs) (rawText : String) :
    List (String × JVal) × List String :=
  let fileMap : List (String × JVal) :=
    [("outputs/facts.json", outputs.facts),
     ("outputs/outline.json", outputs.outline),
     ("outputs/summary.json", outputs.summary),
     ("outputs/validation_report.json", outputs.validation)]
  let trace : JVal := .jobj
    [("raw_text", .jstr rawText),
     ("facts", outputs.facts),
     ("outline", outputs.outline),
     ("summary", outputs.summary),
     ("validation", outputs.validation)]
  let files := fileMap ++ [("outputs/trace.json", trace)]
  (files, files.map (fun f => f.1))

/-- `run_pipeline` of src/app.py (src/main.py has the same stage wiring):
extractor, then structurer on the facts, then summarizer on the outline,
then validator on facts, outline and summary; finally validate and write
all outputs.  On success the payload carries the outputs, the files
written and the paths returned; the second component counts chat calls. -/
def run_pipeline (env : Env) (config : Config) (docText : String) :
    Except Err (Outputs × List (String × JVal) × List String) × Nat :=
  match run_extractor env config docText with
  | (.error e, n1) => (.error e, n1)
  | (.ok facts, n1) =>
    match run_structurer env config facts with
    | (.error e, n2) => (.error e, n1 + n2)
    | (.ok outline, n2) =>
      match run_summarizer env config outline with
      | (.error e, n3) => (.error e, n1 + n2 + n3)
      | (.ok summary, n3) =>
        match run_validator env config facts outline summary with
        | (.error e, n4) => (.error e, n1 + n2 + n3 + n4)
        | (.ok validation, n4) =>
          let outputs : Outputs := ⟨facts, outline, summary, validation⟩
          match validate_outputs env outputs with
          | .error e => (.error e, n1 + n2 + n3 + n4)
          | .ok _ =>
            let written := write_outputs outputs docText
            (.ok (outputs, written), n1 + n2 + n3 + n4)

/-! Concrete fixtures used to exercise the definitions. -/

/-- A 141-character string: 139 letters, a space, one letter.  Stripping
leaves it unchanged, so the extractor caps it to 140 characters and the
capped result ends in a space. -/
def ceFact : String :=
  ⟨List.replicate 139 'a' ++ [' ', 'b']⟩

/-- The capped form of `ceFact`: 139 letters and a trailing space. -/
def ceFactOut : String :=
  ⟨List.replicate 139 'a' ++ [' ']⟩

/-- A 200-character string, longer than the extractor cap. -/
def ceLong : String :=
  ⟨List.replicate 200 'a'⟩

/-- A parsed model output with a facts key. -/
def testObj : JVal :=
  .jobj [("facts", .jarr [.jstr "Revenue up 12 percent."])]

/-- An environment in which every chat answer parses to `testObj` and
every schema check passes. -/
def testEnv : Env where
  apiKey := some "key"
  parse := fun _ => some testObj
  dumps := fun _ => "dump"
  chat := fun _ _ _ _ _ => "raw"
  extractPrompt := "extract"
  structurePrompt := "structure"
  summarizePrompt := "summarize"
  validatePrompt := "validate"
  factsSchema := fun _ => true
  outlineSchema := fun _ => true
  summarySchema := fun _ => true
  validationSchema := fun _ => true

/-- An environment whose chat answers parse only after one repair: the
model first answers text that fails to parse, and the repair call
answers text that parses to `testObj`. -/
def repairEnv : Env :=
  { testEnv with
    parse := fun s => if s = "fixed" then some testObj else none,
    chat := fun _ _ _ _ _ => "fixed" }

/-- `testEnv` with the OPENAI_API_KEY variable unset. -/
def noKeyEnv : Env :=
  { testEnv with apiKey := none }

/-- The four outputs a `testEnv` pipeline run produces. -/
def testOuts : Outputs :=
  ⟨encodeFacts ["Revenue up 12 percent."],
   encodeOutline ⟨"", []⟩,
   encodeSummary ⟨"", [], [], []⟩,
   encodeValidation ⟨0, [], [], []⟩⟩

/-! General lemmas about the embedded Python string primitives. -/

theorem stripChars_dropWhile (l : List Char) :
    (stripChars l).dropWhile Char.isWhitespace = stripChars l := by
  rw [List.dropWhile_eq_self_iff]
  intro hl
  have hpre : stripChars l <+: l.dropWhile Char.isWhitespace :=
    List.rdropWhile_prefix _ _
  have h0 : 0 < (l.dropWhile Char.isWhitespace).length :=
    lt_of_lt_of_le hl hpre.length_le
  have hnot := List.dropWhile_get_zero_not Char.isWhitespace l h0
  simp only [List.get_eq_getElem] at hnot ⊢
  rwa [hpre.getElem hl]

theorem stripChars_idem (l : List Char) :
    stripChars (stripChars l) = stripChars l := by
  show ((stripChars l).dropWhile Char.isWhitespace).rdropWhile Char.isWhitespace = stripChars l
  rw [stripChars_dropWhile]
  exact List.rdropWhile_idempotent _ _

theorem pyStrip_idem (s : String) : pyStrip (pyStrip s) = pyStrip s :=
  congrArg String.mk (stripChars_idem s.data)

theorem String.data_mk (l : List Char) : (String.mk l).data = l := rfl

theorem string_ne_empty_iff (s : String) : s ≠ "" ↔ s.data ≠ [] := by
  constructor
  · intro h hd
    exact h (String.ext hd)
  · intro h hd
    exact h (congrArg String.data hd)

theorem pyLen_capFact (t : String) : pyLen (capFact t) ≤ 140 := by
  unfold capFact
  by_cases h : pyLen t > 140
  · simp only [h, if_true]
    simp [pyLen, pyTake]
  · simp only [h, if_false]
    omega

theorem capFact_ne_empty (t : String) (h : t ≠ "") : capFact t ≠ "" := by
  unfold capFact
  rw [string_ne_empty_iff] at h
  by_cases hl : pyLen t > 140
  · simp only [hl, if_true]
    rw [string_ne_empty_iff, pyTake, String.data_mk]
    cases ht : t.data with
    | nil => exact absurd ht h
    | cons c cs => simp [List.take]
  · simp only [hl, if_false]
    rwa [string_ne_empty_iff]

/-! Lemmas about the `_clean_list` loop. -/

theorem mem_cleanGo {t : String} :
    ∀ (l : List JVal) (seen : List String), t ∈ cleanGo l seen →
      pyStrip t = t ∧ t ≠ "" ∧ t ∉ seen := by
  intro l
  induction l with
  | nil =>
    intro seen h
    simp [cleanGo] at h
  | cons v rest ih =>
    intro seen h
    cases v with
    | jstr s =>
      rw [cleanGo] at h
      by_cases hc : pyStrip s = "" ∨ pyStrip s ∈ seen
      · rw [if_pos hc] at h
        exact ih seen h
      · rw [if_neg hc] at h
        push_neg at hc
        rcases List.mem_cons.mp h with rfl | hmem
        · exact ⟨pyStrip_idem s, hc.1, hc.2⟩
        · obtain ⟨h1, h2, h3⟩ := ih (pyStrip s :: seen) hmem
          exact ⟨h1, h2, fun hs => h3 (List.mem_cons_of_mem _ hs)⟩
    | jnull => rw [cleanGo] at h; exacts [ih seen h, fun _ hs => JVal.noConfusion hs]
    | jbool b => rw [cleanGo] at h; exacts [ih seen h, fun _ hs => JVal.noConfusion hs]
    | jnum q => rw [cleanGo] at h; exacts [ih seen h, fun _ hs => JVal.noConfusion hs]
    | jarr xs => rw [cleanGo] at h; exacts [ih seen h, fun _ hs => JVal.noConfusion hs]
    | jobj fs => rw [cleanGo] at h; exacts [ih seen h, fun _ hs => JVal.noConfusion hs]

theorem cleanGo_nodup : ∀ (l : List JVal) (seen : List String), (cleanGo l seen).Nodup := by
  intro l
  induction l with
  | nil => intro seen; simp [cleanGo]
  | cons v rest ih =>
    intro seen
    cases v with
    | jstr s =>
      rw [cleanGo]
      by_cases hc : pyStrip s = "" ∨ pyStrip s ∈ seen
      · rw [if_pos hc]; exact ih seen
      · rw [if_neg hc]
        refine List.nodup_cons.mpr ⟨?_, ih _⟩
        intro hmem
        exact (mem_cleanGo rest _ hmem).2.2 (List.mem_cons_self _ _)
    | jnull => rw [cleanGo]; exacts [ih seen, fun _ hs => JVal.noConfusion hs]
    | jbool b => rw [cleanGo]; exacts [ih seen, fun _ hs => JVal.noConfusion hs]
    | jnum q => rw [cleanGo]; exacts [ih seen, fun _ hs => JVal.noConfusion hs]
    | jarr xs => rw [cleanGo]; exacts [ih seen, fun _ hs => JVal.noConfusion hs]
    | jobj fs => rw [cleanGo]; exacts [ih seen, fun _ hs => JVal.noConfusion hs]

theorem clean_list_inv (l : List JVal) : cleanInv (clean_list l) :=
  ⟨cleanGo_nodup l [], fun t ht => ⟨(mem_cleanGo l [] ht).1, (mem_cleanGo l [] ht).2.1⟩⟩

theorem cleanGo_fixed :
    ∀ (l : List String) (seen : List String),
      (∀ t ∈ l, pyStrip t = t ∧ t ≠ "") → l.Nodup → (∀ t ∈ l, t ∉ seen) →
      cleanGo (l.map .jstr) seen = l := by
  intro l
  induction l with
  | nil => intro seen _ _ _; rfl
  | cons t rest ih =>
    intro seen hinv hnd hseen
    obtain ⟨hstrip, hne⟩ := hinv t (List.mem_cons_self _ _)
    have hns : t ∉ seen := hseen t (List.mem_cons_self _ _)
    rw [List.map_cons, cleanGo, hstrip, if_neg (by tauto)]
    congr 1
    refine ih (t :: seen) (fun u hu => hinv u (List.mem_cons_of_mem _ hu))
      (List.nodup_cons.mp hnd).2 ?_
    intro u hu
    rw [List.mem_cons]
    push_neg
    refine ⟨?_, hseen u (List.mem_cons_of_mem _ hu)⟩
    intro heq
    exact (List.nodup_cons.mp hnd).1 (heq ▸ hu)

theorem clean_list_fixed (l : List String) (h : cleanInv l) :
    clean_list (l.map .jstr) = l :=
  cleanGo_fixed l [] h.2 h.1 (fun _ _ => List.not_mem_nil _)

/-! Lemmas about the `_normalize_facts` loop. -/

theorem mem_normFactsGo {t : String} :
    ∀ (l : List JVal) (seen : List String), t ∈ normFactsGo l seen →
      t ≠ "" ∧ pyLen t ≤ 140 ∧ t ∉ seen := by
  intro l
  induction l with
  | nil =>
    intro seen h
    simp [normFactsGo] at h
  | cons v rest ih =>
    intro seen h
    cases v with
    | jstr s =>
      rw [normFactsGo] at h
      by_cases h0 : pyStrip s = ""
      · rw [if_pos h0] at h
        exact ih seen h
      · rw [if_neg h0] at h
        by_cases hc : capFact (pyStrip s) ∈ seen
        · rw [if_pos hc] at h
          exact ih seen h
        · rw [if_neg hc] at h
          rcases List.mem_cons.mp h with rfl | hmem
          · exact ⟨capFact_ne_empty _ h0, pyLen_capFact _, hc⟩
          · obtain ⟨h1, h2, h3⟩ := ih (capFact (pyStrip s) :: seen) hmem
            exact ⟨h1, h2, fun hs => h3 (List.mem_cons_of_mem _ hs)⟩
    | jnull => rw [normFactsGo] at h; exacts [ih seen h, fun _ hs => JVal.noConfusion hs]
    | jbool b => rw [normFactsGo] at h; exacts [ih seen h, fun _ hs => JVal.noConfusion hs]
    | jnum q => rw [normFactsGo] at h; exacts [ih seen h, fun _ hs => JVal.noConfusion hs]
    | jarr xs => rw [normFactsGo] at h; exacts [ih seen h, fun _ hs => JVal.noConfusion hs]
    | jobj fs => rw [normFactsGo] at h; exacts [ih seen h, fun _ hs => JVal.noConfusion hs]

theorem normFactsGo_nodup : ∀ (l : List JVal) (seen : List String),
    (normFactsGo l seen).Nodup := by
  intro l
  induction l with
  | nil => intro seen; simp [normFactsGo]
  | cons v rest ih =>
    intro seen
    cases v with
    | jstr s =>
      rw [normFactsGo]
      by_cases h0 : pyStrip s = ""
      · rw [if_pos h0]; exact ih seen
      · rw [if_neg h0]
        by_cases hc : capFact (pyStrip s) ∈ seen
        · rw [if_pos hc]; exact ih seen
        · rw [if_neg hc]
          refine List.nodup_cons.mpr ⟨?_, ih _⟩
          intro hmem
          exact (mem_normFactsGo rest _ hmem).2.2 (List.mem_cons_self _ _)
    | jnull => rw [normFactsGo]; exacts [ih seen, fun _ hs => JVal.noConfusion hs]
    | jbool b => rw [normFactsGo]; exacts [ih seen, fun _ hs => JVal.noConfusion hs]
    | jnum q => rw [normFactsGo]; exacts [ih seen, fun _ hs => JVal.noConfusion hs]
    | jarr xs => rw [normFactsGo]; exacts [ih seen, fun _ hs => JVal.noConfusion hs]
    | jobj fs => rw [normFactsGo]; exacts [ih seen, fun _ hs => JVal.noConfusion hs]

theorem normFactsGo_eq_dedupFirstGo :
    ∀ (l : List JVal) (seen : List String),
      normFactsGo l seen = dedupFirstGo (l.filterMap procFact) seen := by
  intro l
  induction l with
  | nil => intro seen; rfl
  | cons v rest ih =>
    intro seen
    cases v with
    | jstr s =>
      rw [normFactsGo]
      by_cases h0 : pyStrip s = ""
      · rw [if_pos h0]
        have hp : procFact (.jstr s) = none := by
          simp [procFact, h0]
        rw [List.filterMap_cons, hp]
        exact ih seen
      · rw [if_neg h0]
        have hp : procFact (.jstr s) = some (capFact (pyStrip s)) := by
          simp [procFact, h0]
        rw [List.filterMap_cons, hp, dedupFirstGo]
        by_cases hc : capFact (pyStrip s) ∈ seen
        · rw [if_pos hc, if_pos hc]
          exact ih seen
        · rw [if_neg hc, if_neg hc, ih]
    | jnull => rw [normFactsGo, List.filterMap_cons]; exacts [ih seen, fun _ hs => JVal.noConfusion hs]
    | jbool b => rw [normFactsGo, List.filterMap_cons]; exacts [ih seen, fun _ hs => JVal.noConfusion hs]
    | jnum q => rw [normFactsGo, List.filterMap_cons]; exacts [ih seen, fun _ hs => JVal.noConfusion hs]
    | jarr xs => rw [normFactsGo, List.filterMap_cons]; exacts [ih seen, fun _ hs => JVal.noConfusion hs]
    | jobj fs => rw [normFactsGo, List.filterMap_cons]; exacts [ih seen, fun _ hs => JVal.noConfusion hs]

/-! Inversion lemmas for the summarizer and validator normalizers. -/

theorem pyIterList_error (v : JVal) (e : Err) (h : pyIterList v = .error e) :
    e = .typeError := by
  cases v <;> simp [pyIterList] at h <;> exact h.symm

theorem cleanInv_nil : cleanInv [] :=
  ⟨List.nodup_nil, fun t ht => absurd ht (List.not_mem_nil t)⟩

theorem normalize_summary_ok (d : JVal) (s : Summary)
    (h : normalize_summary d = .ok s) :
    ∃ k r c,
      pyIterList ((jget d "key_points").getD (.jarr [])) = .ok k ∧
      pyIterList ((jget d "risks").getD (.jarr [])) = .ok r ∧
      pyIterList ((jget d "recommendations").getD (.jarr [])) = .ok c ∧
      s = ⟨pyStrip (tldrSrc d), clean_list k, clean_list r, clean_list c⟩ := by
  unfold normalize_summary at h
  cases hk : pyIterList ((jget d "key_points").getD (.jarr [])) with
  | error e => rw [hk] at h; simp [Except.map, Bind.bind, Except.bind] at h
  | ok ks =>
    rw [hk] at h
    cases hr : pyIterList ((jget d "risks").getD (.jarr [])) with
    | error e => rw [hr] at h; simp [Except.map, Bind.bind, Except.bind] at h
    | ok rs =>
      rw [hr] at h
      cases hc : pyIterList ((jget d "recommendations").getD (.jarr [])) with
      | error e => rw [hc] at h; simp [Except.map, Bind.bind, Except.bind] at h
      | ok cs =>
        rw [hc] at h
        simp only [Except.map, Bind.bind, Except.bind, pure, Except.pure] at h
        injection h with h
        exact ⟨ks, rs, cs, rfl, rfl, rfl, h.symm⟩

theorem normalize_summary_inv (d : JVal) (s : Summary)
    (h : normalize_summary d = .ok s) :
    pyStrip s.tldr = s.tldr ∧ cleanInv s.key_points ∧
      cleanInv s.risks ∧ cleanInv s.recommendations := by
  obtain ⟨k, r, c, _, _, _, rfl⟩ := normalize_summary_ok d s h
  exact ⟨pyStrip_idem _, clean_list_inv _, clean_list_inv _, clean_list_inv _⟩

theorem normalize_summary_error (d : JVal) (e : Err)
    (h : normalize_summary d = .error e) : e = .typeError := by
  unfold normalize_summary at h
  cases hk : pyIterList ((jget d "key_points").getD (.jarr [])) with
  | error e1 =>
    rw [hk] at h
    simp only [Except.map, Bind.bind, Except.bind] at h
    injection h with h
    exact h ▸ pyIterList_error _ _ hk
  | ok ks =>
    rw [hk] at h
    cases hr : pyIterList ((jget d "risks").getD (.jarr [])) with
    | error e2 =>
      rw [hr] at h
      simp only [Except.map, Bind.bind, Except.bind] at h
      injection h with h
      exact h ▸ pyIterList_error _ _ hr
    | ok rs =>
      rw [hr] at h
      cases hc : pyIterList ((jget d "recommendations").getD (.jarr [])) with
      | error e3 =>
        rw [hc] at h
        simp only [Except.map, Bind.bind, Except.bind] at h
        injection h with h
        exact h ▸ pyIterList_error _ _ hc
      | ok cs =>
        rw [hc] at h
        simp [Except.map, Bind.bind, Except.bind, pure, Except.pure] at h

theorem normalize_validation_ok (d : JVal) (v : Validation)
    (h : normalize_validation d = .ok v) :
    ∃ u m i,
      pyIterList ((jget d "unsupported_claims").getD (.jarr [])) = .ok u ∧
      pyIterList ((jget d "missing_topics").getD (.jarr [])) = .ok m ∧
      pyIterList ((jget d "issues").getD (.jarr [])) = .ok i ∧
      v = ⟨max 0 (min 100 (asPyNumber (jget d "coverage_score"))),
           clean_list u, clean_list m, clean_list i⟩ := by
  unfold normalize_validation at h
  cases hu : pyIterList ((jget d "unsupported_claims").getD (.jarr [])) with
  | error e => rw [hu] at h; simp [Except.map, Bind.bind, Except.bind] at h
  | ok us =>
    rw [hu] at h
    cases hm : pyIterList ((jget d "missing_topics").getD (.jarr [])) with
    | error e => rw [hm] at h; simp [Except.map, Bind.bind, Except.bind] at h
    | ok ms =>
      rw [hm] at h
      cases hi : pyIterList ((jget d "issues").getD (.jarr [])) with
      | error e => rw [hi] at h; simp [Except.map, Bind.bind, Except.bind] at h
      | ok is' =>
        rw [hi] at h
        simp only [Except.map, Bind.bind, Except.bind, pure, Except.pure] at h
        injection h with h
        exact ⟨us, ms, is', rfl, rfl, rfl, h.symm⟩

theorem clamp_mem (q : ℚ) : 0 ≤ max 0 (min 100 q) ∧ max 0 (min 100 q) ≤ 100 :=
  ⟨le_max_left _ _, max_le (by norm_num) (min_le_left _ _)⟩

theorem clamp_fixed (q : ℚ) (h0 : 0 ≤ q) (h1 : q ≤ 100) :
    max 0 (min 100 q) = q := by
  rw [min_eq_right h1, max_eq_right h0]

theorem normalize_validation_inv (d : JVal) (v : Validation)
    (h : normalize_validation d = .ok v) :
    (0 ≤ v.coverage_score ∧ v.coverage_score ≤ 100) ∧
    v.coverage_score = max 0 (min 100 (asPyNumber (jget d "coverage_score"))) ∧
    cleanInv v.unsupported_claims ∧ cleanInv v.missing_topics ∧ cleanInv v.issues := by
  obtain ⟨u, m, i, _, _, _, rfl⟩ := normalize_validation_ok d v h
  exact ⟨clamp_mem _, rfl, clean_list_inv _, clean_list_inv _, clean_list_inv _⟩

theorem normalize_validation_error (d : JVal) (e : Err)
    (h : normalize_validation d = .error e) : e = .typeError := by
  unfold normalize_validation at h
  cases hu : pyIterList ((jget d "unsupported_claims").getD (.jarr [])) with
  | error e1 =>
    rw [hu] at h
    simp only [Except.map, Bind.bind, Except.bind] at h
    injection h with h
    exact h ▸ pyIterList_error _ _ hu
  | ok us =>
    rw [hu] at h
    cases hm : pyIterList ((jget d "missing_topics").getD (.jarr [])) with
    | error e2 =>
      rw [hm] at h
      simp only [Except.map, Bind.bind, Except.bind] at h
      injection h with h
      exact h ▸ pyIterList_error _ _ hm
    | ok ms =>
      rw [hm] at h
      cases hi : pyIterList ((jget d "issues").getD (.jarr [])) with
      | error e3 =>
        rw [hi] at h
        simp only [Except.map, Bind.bind, Except.bind] at h
        injection h with h
        exact h ▸ pyIterList_error _ _ hi
      | ok is' =>
        rw [hi] at h
        simp [Except.map, Bind.bind, Except.bind, pure, Except.pure] at h

/-! Lemmas about the structurer section loop. -/

theorem secBullets_inv (sec : JVal) : cleanInv (secBullets sec) := by
  unfold secBullets
  cases (jget sec "bullets").getD (.jarr []) with
  | jarr bs => exact clean_list_inv bs
  | jnull => exact cleanInv_nil
  | jbool b => exact cleanInv_nil
  | jnum q => exact cleanInv_nil
  | jstr s => exact cleanInv_nil
  | jobj fs => exact cleanInv_nil

theorem normSections_inv : ∀ (l : List JVal), ∀ o ∈ normSections l, secInv o := by
  intro l
  induction l with
  | nil => intro o ho; simp [normSections] at ho
  | cons sec rest ih =>
    intro o ho
    cases sec with
    | jobj fs =>
      rw [normSections] at ho
      by_cases hc : secHeading (.jobj fs) ≠ "" ∨ secBullets (.jobj fs) ≠ []
      · rw [if_pos hc] at ho
        rcases List.mem_cons.mp ho with rfl | hmem
        · exact ⟨pyStrip_idem _, secBullets_inv _, hc⟩
        · exact ih o hmem
      · rw [if_neg hc] at ho
        exact ih o ho
    | jnull => rw [normSections] at ho; exacts [ih o ho, fun _ hs => JVal.noConfusion hs]
    | jbool b => rw [normSections] at ho; exacts [ih o ho, fun _ hs => JVal.noConfusion hs]
    | jnum q => rw [normSections] at ho; exacts [ih o ho, fun _ hs => JVal.noConfusion hs]
    | jstr s => rw [normSections] at ho; exacts [ih o ho, fun _ hs => JVal.noConfusion hs]
    | jarr xs => rw [normSections] at ho; exacts [ih o ho, fun _ hs => JVal.noConfusion hs]

theorem secHeading_encode (o : OSection) :
    secHeading (encodeSection o) = pyStrip o.heading := rfl

theorem secBullets_encode (o : OSection) :
    secBullets (encodeSection o) = clean_list (o.bullets.map .jstr) := rfl

theorem normSections_fixed : ∀ (l : List OSection), (∀ o ∈ l, secInv o) →
    normSections (l.map encodeSection) = l := by
  intro l
  induction l with
  | nil => intro _; rfl
  | cons o rest ih =>
    intro hinv
    obtain ⟨hh, hb, hne⟩ := hinv o (List.mem_cons_self _ _)
    rw [List.map_cons]
    have hobj : encodeSection o =
        .jobj [("heading", .jstr o.heading), ("bullets", .jarr (o.bullets.map .jstr))] := rfl
    rw [hobj, normSections, ← hobj, secHeading_encode, secBullets_encode, hh,
      clean_list_fixed _ hb, if_pos hne]
    rw [ih (fun u hu => hinv u (List.mem_cons_of_mem _ hu))]

theorem normalize_outline_inv (d : JVal) :
    pyStrip (normalize_outline d).title = (normalize_outline d).title ∧
    ∀ o ∈ (normalize_outline d).sections, secInv o := by
  refine ⟨pyStrip_idem _, ?_⟩
  intro o ho
  have hsec : (normalize_outline d).sections =
      match (jget d "sections").getD (.jarr []) with
      | .jarr secs => normSections secs
      | _ => [] := rfl
  rw [hsec] at ho
  generalize (jget d "sections").getD (.jarr []) = x at ho
  cases x with
  | jarr secs => exact normSections_inv secs o ho
  | jnull => simp at ho
  | jbool b => simp at ho
  | jnum q => simp at ho
  | jstr s => simp at ho
  | jobj fs => simp at ho

theorem normalize_outline_idem (d : JVal) :
    normalize_outline (encodeOutline (normalize_outline d)) = normalize_outline d := by
  obtain ⟨ht, hs⟩ := normalize_outline_inv d
  have heq : normalize_outline (encodeOutline (normalize_outline d)) =
      ⟨pyStrip (normalize_outline d).title,
       normSections ((normalize_outline d).sections.map encodeSection)⟩ := rfl
  rw [heq, ht, normSections_fixed _ hs]

theorem normalize_summary_encode (s : Summary) :
    normalize_summary (encodeSummary s) =
      .ok ⟨pyStrip s.tldr, clean_list (s.key_points.map .jstr),
           clean_list (s.risks.map .jstr),
           clean_list (s.recommendations.map .jstr)⟩ := rfl

theorem normalize_summary_idem (d : JVal) (s : Summary)
    (h : normalize_summary d = .ok s) :
    normalize_summary (encodeSummary s) = .ok s := by
  obtain ⟨ht, hk, hr, hc⟩ := normalize_summary_inv d s h
  rw [normalize_summary_encode, ht, clean_list_fixed _ hk,
    clean_list_fixed _ hr, clean_list_fixed _ hc]

theorem normalize_validation_encode (v : Validation) :
    normalize_validation (encodeValidation v) =
      .ok ⟨max 0 (min 100 v.coverage_score),
           clean_list (v.unsupported_claims.map .jstr),
           clean_list (v.missing_topics.map .jstr),
           clean_list (v.issues.map .jstr)⟩ := rfl

theorem normalize_validation_idem (d : JVal) (v : Validation)
    (h : normalize_validation d = .ok v) :
    normalize_validation (encodeValidation v) = .ok v := by
  obtain ⟨⟨h0, h1⟩, _, hu, hm, hi⟩ := normalize_validation_inv d v h
  rw [normalize_validation_encode, clamp_fixed _ h0 h1, clean_list_fixed _ hu,
    clean_list_fixed _ hm, clean_list_fixed _ hi]

theorem clean_list_idem (l : List JVal) :
    clean_list ((clean_list l).map .jstr) = clean_list l :=
  clean_list_fixed _ (clean_list_inv l)

/-! Inversion lemmas for the stage tails and the run functions. -/

theorem extractorFinish_ok (env : Env) (d r : JVal)
    (h : extractorFinish env d = .ok r) :
    env.factsSchema r = true ∧ ∃ items, r = encodeFacts (normalize_facts items) := by
  cases d with
  | jobj fields =>
    simp only [extractorFinish] at h
    by_cases hf : (fields.lookup "facts").isSome = true
    · rw [if_pos hf] at h
      cases hit : pyIterList ((fields.lookup "facts").getD (.jarr [])) with
      | error e => rw [hit] at h; simp at h
      | ok items =>
        rw [hit] at h
        dsimp only at h
        by_cases hs : env.factsSchema (encodeFacts (normalize_facts items)) = true
        · rw [if_pos hs] at h
          injection h with h
          exact ⟨h ▸ hs, items, h.symm⟩
        · rw [if_neg hs] at h; simp at h
    · rw [if_neg hf] at h; simp at h
  | jnull => simp [extractorFinish] at h
  | jbool b => simp [extractorFinish] at h
  | jnum q => simp [extractorFinish] at h
  | jstr s => simp [extractorFinish] at h
  | jarr xs => simp [extractorFinish] at h

theorem structurerFinish_ok (env : Env) (d r : JVal)
    (h : structurerFinish env d = .ok r) :
    env.outlineSchema r = true ∧ ∃ d', r = encodeOutline (normalize_outline d') := by
  cases d with
  | jobj fields =>
    simp only [structurerFinish] at h
    by_cases hs : env.outlineSchema (encodeOutline (normalize_outline (.jobj fields))) = true
    · rw [if_pos hs] at h
      injection h with h
      exact ⟨h ▸ hs, .jobj fields, h.symm⟩
    · rw [if_neg hs] at h; simp at h
  | jnull => simp [structurerFinish] at h
  | jbool b => simp [structurerFinish] at h
  | jnum q => simp [structurerFinish] at h
  | jstr s => simp [structurerFinish] at h
  | jarr xs => simp [structurerFinish] at h

theorem summarizerFinish_ok (env : Env) (d r : JVal)
    (h : summarizerFinish env d = .ok r) :
    env.summarySchema r = true ∧
      ∃ d' s, normalize_summary d' = .ok s ∧ r = encodeSummary s := by
  cases d with
  | jobj fields =>
    simp only [summarizerFinish] at h
    cases hn : normalize_summary (.jobj fields) with
    | error e => rw [hn] at h; simp at h
    | ok s =>
      rw [hn] at h
      dsimp only at h
      by_cases hs : env.summarySchema (encodeSummary s) = true
      · rw [if_pos hs] at h
        injection h with h
        exact ⟨h ▸ hs, .jobj fields, s, hn, h.symm⟩
      · rw [if_neg hs] at h; simp at h
  | jnull => simp [summarizerFinish] at h
  | jbool b => simp [summarizerFinish] at h
  | jnum q => simp [summarizerFinish] at h
  | jstr s => simp [summarizerFinish] at h
  | jarr xs => simp [summarizerFinish] at h

theorem validatorFinish_ok (env : Env) (d r : JVal)
    (h : validatorFinish env d = .ok r) :
    env.validationSchema r = true ∧
      ∃ d' v, normalize_validation d' = .ok v ∧ r = encodeValidation v := by
  cases d with
  | jobj fields =>
    simp only [validatorFinish] at h
    cases hn : normalize_validation (.jobj fields) with
    | error e => rw [hn] at h; simp at h
    | ok v =>
      rw [hn] at h
      dsimp only at h
      by_cases hs : env.validationSchema (encodeValidation v) = true
      · rw [if_pos hs] at h
        injection h with h
        exact ⟨h ▸ hs, .jobj fields, v, hn, h.symm⟩
      · rw [if_neg hs] at h; simp at h
  | jnull => simp [validatorFinish] at h
  | jbool b => simp [validatorFinish] at h
  | jnum q => simp [validatorFinish] at h
  | jstr s => simp [validatorFinish] at h
  | jarr xs => simp [validatorFinish] at h

theorem run_extractor_ok (env : Env) (config : Config) (text : String)
    (r : JVal) (n : Nat) (h : run_extractor env config text = (.ok r, n)) :
    ∃ d, extractorFinish env d = .ok r := by
  simp only [run_extractor] at h
  cases hg : get_client_from_env_and_config config env.apiKey with
  | error e => rw [hg] at h; simp at h
  | ok client =>
    rw [hg] at h
    dsimp only at h
    split at h
    · simp at h
    · rename_i data cnt heq
      simp only [Prod.mk.injEq] at h
      exact ⟨data, h.1⟩

theorem run_structurer_ok (env : Env) (config : Config) (facts : JVal)
    (r : JVal) (n : Nat) (h : run_structurer env config facts = (.ok r, n)) :
    ∃ d, structurerFinish env d = .ok r := by
  simp only [run_structurer] at h
  cases hg : get_client_from_env_and_config config env.apiKey with
  | error e => rw [hg] at h; simp at h
  | ok client =>
    rw [hg] at h
    dsimp only at h
    split at h
    · simp at h
    · rename_i data cnt heq
      simp only [Prod.mk.injEq] at h
      exact ⟨data, h.1⟩

theorem run_summarizer_ok (env : Env) (config : Config) (outline : JVal)
    (r : JVal) (n : Nat) (h : run_summarizer env config outline = (.ok r, n)) :
    ∃ d, summarizerFinish env d = .ok r := by
  simp only [run_summarizer] at h
  cases hg : get_client_from_env_and_config config env.apiKey with
  | error e => rw [hg] at h; simp at h
  | ok client =>
    rw [hg] at h
    dsimp only at h
    split at h
    · simp at h
    · rename_i data cnt heq
      simp only [Prod.mk.injEq] at h
      exact ⟨data, h.1⟩

theorem run_validator_ok (env : Env) (config : Config) (facts outline summary : JVal)
    (r : JVal) (n : Nat)
    (h : run_validator env config facts outline summary = (.ok r, n)) :
    ∃ d, validatorFinish env d = .ok r := by
  simp only [run_validator] at h
  cases hg : get_client_from_env_and_config config env.apiKey with
  | error e => rw [hg] at h; simp at h
  | ok client =>
    rw [hg] at h
    dsimp only at h
    split at h
    · simp at h
    · rename_i data cnt heq
      simp only [Prod.mk.injEq] at h
      exact ⟨data, h.1⟩

/-! Shape requirements of the four stage tails. -/

theorem extractorFinish_shape_error (env : Env) (d : JVal)
    (hd : isObj d = false ∨ jget d "facts" = none) :
    extractorFinish env d = .error (.valueError "Extractor output missing facts key.") := by
  cases d with
  | jobj fields =>
    rcases hd with hd | hd
    · simp [isObj] at hd
    · simp only [jget] at hd
      simp [extractorFinish, hd]
  | jnull => rfl
  | jbool b => rfl
  | jnum q => rfl
  | jstr s => rfl
  | jarr xs => rfl

theorem structurerFinish_shape_error (env : Env) (d : JVal) (hd : isObj d = false) :
    structurerFinish env d = .error (.valueError "Structurer output is not a JSON object.") := by
  cases d with
  | jobj fields => simp [isObj] at hd
  | jnull => rfl
  | jbool b => rfl
  | jnum q => rfl
  | jstr s => rfl
  | jarr xs => rfl

theorem summarizerFinish_shape_error (env : Env) (d : JVal) (hd : isObj d = false) :
    summarizerFinish env d = .error (.valueError "Summarizer output is not a JSON object.") := by
  cases d with
  | jobj fields => simp [isObj] at hd
  | jnull => rfl
  | jbool b => rfl
  | jnum q => rfl
  | jstr s => rfl
  | jarr xs => rfl

theorem validatorFinish_shape_error (env : Env) (d : JVal) (hd : isObj d = false) :
    validatorFinish env d = .error (.valueError "Validator output is not a JSON object.") := by
  cases d with
  | jobj fields => simp [isObj] at hd
  | jnull => rfl
  | jbool b => rfl
  | jnum q => rfl
  | jstr s => rfl
  | jarr xs => rfl

theorem extractorFinish_no_value_error (env : Env) (fields : List (String × JVal))
    (msg : String) (hsome : (List.lookup "facts" fields).isSome = true) :
    extractorFinish env (.jobj fields) ≠ .error (.valueError msg) := by
  simp only [extractorFinish, hsome, if_true]
  cases hit : pyIterList ((List.lookup "facts" fields).getD (.jarr [])) with
  | error e =>
    have he := pyIterList_error _ _ hit
    subst he
    simp
  | ok items =>
    dsimp only
    by_cases hs : env.factsSchema (encodeFacts (normalize_facts items)) = true
    · simp [hs]
    · simp [hs]

theorem structurerFinish_no_value_error (env : Env) (fields : List (String × JVal))
    (msg : String) :
    structurerFinish env (.jobj fields) ≠ .error (.valueError msg) := by
  simp only [structurerFinish]
  by_cases hs : env.outlineSchema (encodeOutline (normalize_outline (.jobj fields))) = true
  · simp [hs]
  · simp [hs]

theorem summarizerFinish_no_value_error (env : Env) (fields : List (String × JVal))
    (msg : String) :
    summarizerFinish env (.jobj fields) ≠ .error (.valueError msg) := by
  simp only [summarizerFinish]
  cases hn : normalize_summary (.jobj fields) with
  | error e =>
    have he := normalize_summary_error _ _ hn
    subst he
    simp
  | ok s =>
    dsimp only
    by_cases hs : env.summarySchema (encodeSummary s) = true
    · simp [hs]
    · simp [hs]

theorem validatorFinish_no_value_error (env : Env) (fields : List (String × JVal))
    (msg : String) :
    validatorFinish env (.jobj fields) ≠ .error (.valueError msg) := by
  simp only [validatorFinish]
  cases hn : normalize_validation (.jobj fields) with
  | error e =>
    have he := normalize_validation_error _ _ hn
    subst he
    simp
  | ok v =>
    dsimp only
    by_cases hs : env.validationSchema (encodeValidation v) = true
    · simp [hs]
    · simp [hs]

/-! Missing fields default to empty strings, empty lists or zero. -/

theorem outline_title_default (fields : List (String × JVal))
    (h : List.lookup "title" fields = none) :
    (normalize_outline (.jobj fields)).title = "" := by
  show pyStrip (outlineTitleSrc (.jobj fields)) = ""
  rw [show outlineTitleSrc (.jobj fields) = "" from by simp [outlineTitleSrc, jget, h]]
  rfl

theorem outline_sections_default (fields : List (String × JVal))
    (h : List.lookup "sections" fields = none) :
    (normalize_outline (.jobj fields)).sections = [] := by
  show (match (jget (.jobj fields) "sections").getD (.jarr []) with
    | .jarr secs => normSections secs
    | _ => []) = []
  rw [show jget (.jobj fields) "sections" = none from by simp [jget, h]]
  rfl

theorem summary_tldr_default (fields : List (String × JVal)) (s : Summary)
    (ht : List.lookup "tldr" fields = none)
    (h : normalize_summary (.jobj fields) = .ok s) : s.tldr = "" := by
  obtain ⟨k, r, c, _, _, _, rfl⟩ := normalize_summary_ok _ _ h
  show pyStrip (tldrSrc (.jobj fields)) = ""
  rw [show tldrSrc (.jobj fields) = "" from by simp [tldrSrc, jget, ht]]
  rfl

theorem summary_key_points_default (fields : List (String × JVal)) (s : Summary)
    (hk : List.lookup "key_points" fields = none)
    (h : normalize_summary (.jobj fields) = .ok s) : s.key_points = [] := by
  obtain ⟨k, r, c, hk', _, _, rfl⟩ := normalize_summary_ok _ _ h
  rw [show jget (.jobj fields) "key_points" = none from by simp [jget, hk]] at hk'
  simp only [Option.getD_none, pyIterList, Except.ok.injEq] at hk'
  subst hk'
  rfl
theorem validation_coverage_default (fields : List (String × JVal)) (v : Validation)
    (hc : List.lookup "coverage_score" fields = none)
    (h : normalize_validation (.jobj fields) = .ok v) : v.coverage_score = 0 := by
  obtain ⟨u, m, i, _, _, _, rfl⟩ := normalize_validation_ok _ _ h
  show max 0 (min 100 (asPyNumber (jget (.jobj fields) "coverage_score"))) = 0
  rw [show jget (.jobj fields) "coverage_score" = none from by simp [jget, hc]]
  norm_num [asPyNumber]

/-! The claims. -/

/-- C1: for every stage, when the raw model output fails to parse as
JSON, `_parse_json_or_repair` re-prompts the API exactly once with the
fix-to-valid-JSON repair instruction (the shared helper, instantiated per
stage by its shape hint) and parses the repaired output; if the repaired
output also fails to parse, the decode error propagates to the caller
with no further repair attempt; and when the raw output parses directly
no repair call is made at all.  The second component of the result counts
the repair chat calls. -/
theorem parse_json_or_repair_spec (shape : String) (env : Env) (config : Config)
    (raw : String) (client : Client)
    (hc : get_client_from_env_and_config config env.apiKey = .ok client) :
    (∀ v, env.parse raw = some v →
      parse_json_or_repair shape env config raw = (.ok v, 0)) ∧
    (env.parse raw = none →
      ∀ v, env.parse (env.chat client (config.model.getD "gpt-4.1-mini")
          (repairMessages shape raw) 0 (config.maxTokens.getD 1200)) = some v →
        parse_json_or_repair shape env config raw = (.ok v, 1)) ∧
    (env.parse raw = none →
      env.parse (env.chat client (config.model.getD "gpt-4.1-mini")
          (repairMessages shape raw) 0 (config.maxTokens.getD 1200)) = none →
        parse_json_or_repair shape env config raw = (.error .jsonDecodeError, 1)) := by
  refine ⟨?_, ?_, ?_⟩
  · intro v hv
    simp [parse_json_or_repair, hv]
  · intro hraw v hrep
    simp [parse_json_or_repair, hraw, hc, hrep]
  · intro hraw hrep
    simp [parse_json_or_repair, hraw, hc, hrep]

/-- Witness for C1 at a concrete environment: "bad" fails to parse, the
single repair call answers "fixed", which parses to `testObj`. -/
theorem parse_json_or_repair_spec_witness :
    get_client_from_env_and_config {} repairEnv.apiKey = .ok ⟨"key"⟩ ∧
    repairEnv.parse "bad" = none ∧
    repairEnv.parse (repairEnv.chat ⟨"key"⟩ "gpt-4.1-mini"
      (repairMessages extractShape "bad") 0 1200) = some testObj ∧
    parse_json_or_repair extractShape repairEnv {} "bad" = (.ok testObj, 1) := by
  refine ⟨rfl, rfl, rfl, ?_⟩
  exact (parse_json_or_repair_spec extractShape repairEnv {} "bad" ⟨"key"⟩ rfl).2.1
    rfl testObj rfl

/-- C2: every stage validates its normalized result against the stage
schema before returning and raises on mismatch, so every value a
run_extractor / run_structurer / run_summarizer / run_validator call
returns satisfies the corresponding schema predicate, and the value fed
to validation is the normalizer's output, never the raw parsed data. -/
theorem stages_validate_normalized (env : Env) (config : Config)
    (text : String) (f o su r : JVal) (n : Nat) :
    (run_extractor env config text = (.ok r, n) →
      env.factsSchema r = true ∧ ∃ items, r = encodeFacts (normalize_facts items)) ∧
    (run_structurer env config f = (.ok r, n) →
      env.outlineSchema r = true ∧ ∃ d, r = encodeOutline (normalize_outline d)) ∧
    (run_summarizer env config o = (.ok r, n) →
      env.summarySchema r = true ∧
        ∃ d s, normalize_summary d = .ok s ∧ r = encodeSummary s) ∧
    (run_validator env config f o su = (.ok r, n) →
      env.validationSchema r = true ∧
        ∃ d v, normalize_validation d = .ok v ∧ r = encodeValidation v) := by
  refine ⟨?_, ?_, ?_, ?_⟩
  · intro h
    obtain ⟨d, hd⟩ := run_extractor_ok env config text r n h
    exact extractorFinish_ok env d r hd
  · intro h
    obtain ⟨d, hd⟩ := run_structurer_ok env config f r n h
    exact structurerFinish_ok env d r hd
  · intro h
    obtain ⟨d, hd⟩ := run_summarizer_ok env config o r n h
    exact summarizerFinish_ok env d r hd
  · intro h
    obtain ⟨d, hd⟩ := run_validator_ok env config f o su r n h
    exact validatorFinish_ok env d r hd

/-- Witness for C2: a concrete extractor run returns a value the schema
predicate accepts. -/
theorem stages_validate_normalized_witness :
    run_extractor testEnv {} "doc" = (.ok (encodeFacts ["Revenue up 12 percent."]), 1) ∧
    testEnv.factsSchema (encodeFacts ["Revenue up 12 percent."]) = true := by
  refine ⟨rfl, ?_⟩
  exact ((stages_validate_normalized testEnv {} "doc" .jnull .jnull .jnull
    (encodeFacts ["Revenue up 12 percent."]) 1).1 rfl).1

set_option maxRecDepth 20000 in
/-- Counterexample to C3 as stated: on a single 141-character stripped
input the extractor keeps the capped 140-character string, which ends in
a space — the kept element is not a stripped string. -/
theorem normalize_facts_not_stripped_cex :
    normalize_facts [.jstr ceFact] = [ceFactOut] ∧ pyStrip ceFactOut ≠ ceFactOut := by
  decide

/-- C3 (as amended: an element kept after the 140-character cap can carry
trailing whitespace, so "stripped" is dropped): every element of the
extractor's normalized list is a non-empty string of at most 140
characters, the elements are pairwise distinct, non-string and
whitespace-only entries are dropped, and the result is exactly the
first-occurrence deduplication, in input order, of the processed
(stripped then capped) entries. -/
theorem normalize_facts_spec (l : List JVal) :
    (∀ t ∈ normalize_facts l, t ≠ "" ∧ pyLen t ≤ 140) ∧
    (normalize_facts l).Nodup ∧
    normalize_facts l = dedupFirst (l.filterMap procFact) := by
  refine ⟨?_, normFactsGo_nodup l [], normFactsGo_eq_dedupFirstGo l []⟩
  intro t ht
  obtain ⟨h1, h2, _⟩ := mem_normFactsGo l [] ht
  exact ⟨h1, h2⟩

/-- Witness for C3 on a small concrete list: trimming, dropping and
deduplication keep exactly one element. -/
theorem normalize_facts_spec_witness :
    "hi" ∈ normalize_facts [.jstr "  hi  ", .jnum 3, .jstr "hi", .jstr "   "] ∧
    ("hi" ≠ "" ∧ pyLen "hi" ≤ 140) := by
  refine ⟨by decide, ?_⟩
  exact (normalize_facts_spec [.jstr "  hi  ", .jnum 3, .jstr "hi", .jstr "   "]).1
    "hi" (by decide)

/-- Counterexample to C4 as stated: the JSON boolean true is not a JSON
number, yet the validator normalizes coverage_score true to 1, not 0,
because Python bools pass the isinstance int check. -/
theorem normalize_validation_bool_cex :
    normalize_validation (.jobj [("coverage_score", .jbool true)]) =
      .ok ⟨1, [], [], []⟩ ∧ (1 : ℚ) ≠ 0 :=
  ⟨rfl, by norm_num⟩

/-- C4 (as amended: JSON booleans are treated as the numbers 0 and 1
rather than replaced by 0): the normalized coverage_score always lies in
[0, 100]; a JSON-number value is clamped to that range; a missing or
non-numeric value other than a boolean is replaced by 0; a boolean
becomes 0 or 1. -/
theorem coverage_score_clamped (d : JVal) (v : Validation)
    (h : normalize_validation d = .ok v) :
    (0 ≤ v.coverage_score ∧ v.coverage_score ≤ 100) ∧
    v.coverage_score = max 0 (min 100 (asPyNumber (jget d "coverage_score"))) ∧
    (∀ q, jget d "coverage_score" = some (.jnum q) →
      v.coverage_score = max 0 (min 100 q)) ∧
    (jget d "coverage_score" = none → v.coverage_score = 0) ∧
    (∀ s, jget d "coverage_score" = some (.jstr s) → v.coverage_score = 0) ∧
    (∀ b, jget d "coverage_score" = some (.jbool b) →
      v.coverage_score = if b then 1 else 0) := by
  obtain ⟨hb, he, _⟩ := normalize_validation_inv d v h
  refine ⟨hb, he, ?_, ?_, ?_, ?_⟩
  · intro q hq
    simp [he, hq, asPyNumber]
  · intro hq
    rw [he, hq]
    norm_num [asPyNumber]
  · intro s hs
    rw [he, hs]
    norm_num [asPyNumber]
  · intro b hb'
    rw [he, hb']
    cases b <;> norm_num [asPyNumber]

/-- Witness for C4: a numeric coverage_score of 150 is clamped to 100. -/
theorem coverage_score_clamped_witness :
    normalize_validation (.jobj [("coverage_score", .jnum 150)]) =
      .ok ⟨100, [], [], []⟩ ∧
    (0 ≤ (100 : ℚ) ∧ (100 : ℚ) ≤ 100) := by
  refine ⟨rfl, ?_⟩
  exact (coverage_score_clamped (.jobj [("coverage_score", .jnum 150)])
    ⟨100, [], [], []⟩ rfl).1

set_option maxRecDepth 20000 in
/-- Counterexample to C5 as stated: a 200-character bullet survives the
summarizer's `_clean_list` and the structurer's `_normalize_outline` at
full length — neither caps string length. -/
theorem clean_list_no_cap_cex :
    clean_list [.jstr ceLong] = [ceLong] ∧
    normalize_outline
        (.jobj [("sections", .jarr [.jobj [("bullets", .jarr [.jstr ceLong])]])]) =
      ⟨"", [⟨"", [ceLong]⟩]⟩ ∧
    pyLen ceLong = 200 := by
  decide

/-- C5 (as amended: only the extractor caps string length and only the
validator clamps a numeric range): every stage normalization trims its
strings and deduplicates its string lists; the extractor additionally
caps elements at 140 characters; the validator additionally clamps
coverage_score to [0, 100]. -/
theorem normalization_trim_dedupe_spec :
    (∀ l, cleanInv (clean_list l)) ∧
    (∀ d, pyStrip (normalize_outline d).title = (normalize_outline d).title ∧
      ∀ o ∈ (normalize_outline d).sections,
        pyStrip o.heading = o.heading ∧ cleanInv o.bullets) ∧
    (∀ l, (normalize_facts l).Nodup ∧ ∀ t ∈ normalize_facts l, pyLen t ≤ 140) ∧
    (∀ d v, normalize_validation d = .ok v →
      0 ≤ v.coverage_score ∧ v.coverage_score ≤ 100) := by
  refine ⟨clean_list_inv, ?_, ?_, ?_⟩
  · intro d
    obtain ⟨ht, hs⟩ := normalize_outline_inv d
    exact ⟨ht, fun o ho => ⟨(hs o ho).1, (hs o ho).2.1⟩⟩
  · intro l
    exact ⟨normFactsGo_nodup l [], fun t ht => (mem_normFactsGo l [] ht).2.1⟩
  · intro d v h
    exact (normalize_validation_inv d v h).1

/-- Witness for C5: a negative coverage_score is clamped up to 0, inside
[0, 100]. -/
theorem normalization_trim_dedupe_spec_witness :
    normalize_validation (.jobj [("coverage_score", .jnum 150)]) =
      .ok ⟨100, [], [], []⟩ ∧
    (0 ≤ (100 : ℚ) ∧ (100 : ℚ) ≤ 100) := by
  refine ⟨rfl, ?_⟩
  exact normalization_trim_dedupe_spec.2.2.2
    (.jobj [("coverage_score", .jnum 150)]) ⟨100, [], [], []⟩ rfl

/-- C6: the driver runs the four stages in sequence, feeding each stage's
output to the next: the extractor's result is the structurer's input, the
structurer's result the summarizer's input, and the summarizer's result
(together with the earlier two outputs) the validator's input. -/
theorem run_pipeline_chains_stages (env : Env) (config : Config) (docText : String)
    (out : Outputs) (files : List (String × JVal)) (paths : List String) (n : Nat)
    (h : run_pipeline env config docText = (.ok (out, files, paths), n)) :
    ∃ n1 n2 n3 n4,
      run_extractor env config docText = (.ok out.facts, n1) ∧
      run_structurer env config out.facts = (.ok out.outline, n2) ∧
      run_summarizer env config out.outline = (.ok out.summary, n3) ∧
      run_validator env config out.facts out.outline out.summary =
        (.ok out.validation, n4) := by
  simp only [run_pipeline] at h
  split at h
  · simp at h
  · rename_i facts n1 hx
    split at h
    · simp at h
    · rename_i outline n2 hs
      split at h
      · simp at h
      · rename_i summary n3 hsum
        split at h
        · simp at h
        · rename_i validation n4 hv
          split at h
          · simp at h
          · simp only [Prod.mk.injEq, Except.ok.injEq] at h
            obtain ⟨⟨houts, _⟩, _⟩ := h
            subst houts
            exact ⟨n1, n2, n3, n4, hx, hs, hsum, hv⟩

/-- Witness for C6: the concrete `testEnv` pipeline succeeds and each
stage call is reproducible from the previous output. -/
theorem run_pipeline_chains_stages_witness :
    run_pipeline testEnv {} "doc" =
      (.ok (testOuts, write_outputs testOuts "doc"), 4) ∧
    ∃ n1 n2 n3 n4,
      run_extractor testEnv {} "doc" = (.ok testOuts.facts, n1) ∧
      run_structurer testEnv {} testOuts.facts = (.ok testOuts.outline, n2) ∧
      run_summarizer testEnv {} testOuts.outline = (.ok testOuts.summary, n3) ∧
      run_validator testEnv {} testOuts.facts testOuts.outline testOuts.summary =
        (.ok testOuts.validation, n4) := by
  refine ⟨rfl, ?_⟩
  exact run_pipeline_chains_stages testEnv {} "doc" testOuts
    (write_outputs testOuts "doc").1 (write_outputs testOuts "doc").2 4 rfl

/-- C7: write_outputs writes exactly five files to the outputs directory —
facts.json, outline.json, summary.json, validation_report.json and a
trace.json combining the raw input text with all four stage outputs —
and returns the list of the five written paths. -/
theorem write_outputs_spec (outputs : Outputs) (rawText : String) :
    write_outputs outputs rawText =
      ([("outputs/facts.json", outputs.facts),
        ("outputs/outline.json", outputs.outline),
        ("outputs/summary.json", outputs.summary),
        ("outputs/validation_report.json", outputs.validation),
        ("outputs/trace.json", .jobj
          [("raw_text", .jstr rawText), ("facts", outputs.facts),
           ("outline", outputs.outline), ("summary", outputs.summary),
           ("validation", outputs.validation)])],
       ["outputs/facts.json", "outputs/outline.json", "outputs/summary.json",
        "outputs/validation_report.json", "outputs/trace.json"]) ∧
    (write_outputs outputs rawText).1.length = 5 ∧
    (write_outputs outputs rawText).2 = (write_outputs outputs rawText).1.map Prod.fst :=
  ⟨rfl, rfl, rfl⟩

set_option maxRecDepth 20000 in
/-- Counterexample to C8 as stated: `_normalize_facts` is not idempotent:
capping a 141-character stripped string leaves a trailing space, and a
second pass strips it again. -/
theorem normalize_facts_not_idempotent_cex :
    normalize_facts ((normalize_facts [.jstr ceFact]).map .jstr) ≠
      normalize_facts [.jstr ceFact] := by
  decide

/-- C8 (as amended: `_normalize_facts` is excluded, its 140-character cap
can produce a non-stripped element that a second pass changes): the
structurer, summarizer and validator normalizations and `_clean_list`
are idempotent on their own output. -/
theorem normalizers_idempotent :
    (∀ l, clean_list ((clean_list l).map .jstr) = clean_list l) ∧
    (∀ d, normalize_outline (encodeOutline (normalize_outline d)) = normalize_outline d) ∧
    (∀ d s, normalize_summary d = .ok s →
      normalize_summary (encodeSummary s) = .ok s) ∧
    (∀ d v, normalize_validation d = .ok v →
      normalize_validation (encodeValidation v) = .ok v) :=
  ⟨clean_list_idem, normalize_outline_idem, normalize_summary_idem,
   normalize_validation_idem⟩

/-- Witness for C8 at a concrete parsed value. -/
theorem normalizers_idempotent_witness :
    normalize_summary testObj = .ok ⟨"", [], [], []⟩ ∧
    normalize_summary (encodeSummary ⟨"", [], [], []⟩) = .ok ⟨"", [], [], []⟩ := by
  refine ⟨rfl, ?_⟩
  exact normalizers_idempotent.2.2.1 testObj ⟨"", [], [], []⟩ rfl

/-- C9: the extractor raises ValueError exactly when the parsed value is
not a JSON object or lacks a facts key, while the structurer, summarizer
and validator raise ValueError exactly when the parsed value is not a
JSON object, and treat missing fields as empty lists, empty strings or
zero during normalization. -/
theorem stage_shape_requirements :
    (∀ env d, isObj d = false ∨ jget d "facts" = none →
      extractorFinish env d =
        .error (.valueError "Extractor output missing facts key.")) ∧
    (∀ env fields msg, (List.lookup "facts" fields).isSome = true →
      extractorFinish env (.jobj fields) ≠ .error (.valueError msg)) ∧
    (∀ env d, isObj d = false →
      structurerFinish env d =
        .error (.valueError "Structurer output is not a JSON object.") ∧
      summarizerFinish env d =
        .error (.valueError "Summarizer output is not a JSON object.") ∧
      validatorFinish env d =
        .error (.valueError "Validator output is not a JSON object.")) ∧
    (∀ env fields msg,
      structurerFinish env (.jobj fields) ≠ .error (.valueError msg) ∧
      summarizerFinish env (.jobj fields) ≠ .error (.valueError msg) ∧
      validatorFinish env (.jobj fields) ≠ .error (.valueError msg)) ∧
    (∀ fields, List.lookup "title" fields = none →
      (normalize_outline (.jobj fields)).title = "") ∧
    (∀ fields, List.lookup "sections" fields = none →
      (normalize_outline (.jobj fields)).sections = []) ∧
    (∀ fields s, List.lookup "tldr" fields = none →
      normalize_summary (.jobj fields) = .ok s → s.tldr = "") ∧
    (∀ fields s, List.lookup "key_points" fields = none →
      normalize_summary (.jobj fields) = .ok s → s.key_points = []) ∧
    (∀ fields v, List.lookup "coverage_score" fields = none →
      normalize_validation (.jobj fields) = .ok v → v.coverage_score = 0) := by
  refine ⟨extractorFinish_shape_error, extractorFinish_no_value_error, ?_, ?_,
    outline_title_default, outline_sections_default, summary_tldr_default,
    summary_key_points_default, validation_coverage_default⟩
  · intro env d hd
    exact ⟨structurerFinish_shape_error env d hd,
      summarizerFinish_shape_error env d hd, validatorFinish_shape_error env d hd⟩
  · intro env fields msg
    exact ⟨structurerFinish_no_value_error env fields msg,
      summarizerFinish_no_value_error env fields msg,
      validatorFinish_no_value_error env fields msg⟩

/-- Witness for C9 at concrete parsed values: a JSON array triggers the
stage-specific ValueError messages. -/
theorem stage_shape_requirements_witness :
    isObj (.jarr []) = false ∧
    extractorFinish testEnv (.jarr []) =
      .error (.valueError "Extractor output missing facts key.") ∧
    structurerFinish testEnv (.jarr []) =
      .error (.valueError "Structurer output is not a JSON object.") := by
  refine ⟨rfl, ?_, ?_⟩
  · exact stage_shape_requirements.1 testEnv (.jarr []) (Or.inl rfl)
  · exact (stage_shape_requirements.2.2.1 testEnv (.jarr []) rfl).1

/-- C10: get_client_from_env_and_config raises ValueError exactly when
OPENAI_API_KEY is unset or empty; under that condition every stage run
and the whole pipeline raise that error having made zero chat calls —
before any API request — and the pipeline produces no outputs and writes
no file. -/
theorem api_key_required_spec (env : Env) (config : Config)
    (text : String) (f o su : JVal) :
    (get_client_from_env_and_config config env.apiKey =
        .error (.valueError "OPENAI_API_KEY is not set.") ↔
      (env.apiKey = none ∨ env.apiKey = some "")) ∧
    ((env.apiKey = none ∨ env.apiKey = some "") →
      run_extractor env config text =
        (.error (.valueError "OPENAI_API_KEY is not set."), 0) ∧
      run_structurer env config f =
        (.error (.valueError "OPENAI_API_KEY is not set."), 0) ∧
      run_summarizer env config o =
        (.error (.valueError "OPENAI_API_KEY is not set."), 0) ∧
      run_validator env config f o su =
        (.error (.valueError "OPENAI_API_KEY is not set."), 0) ∧
      run_pipeline env config text =
        (.error (.valueError "OPENAI_API_KEY is not set."), 0)) := by
  have hcl : (env.apiKey = none ∨ env.apiKey = some "") →
      get_client_from_env_and_config config env.apiKey =
        .error (.valueError "OPENAI_API_KEY is not set.") := by
    intro hk
    rcases hk with hk | hk <;> simp [get_client_from_env_and_config, hk]
  constructor
  · constructor
    · intro h
      cases hk : env.apiKey with
      | none => exact Or.inl rfl
      | some k =>
        rw [hk] at h
        simp only [get_client_from_env_and_config] at h
        by_cases hke : k = ""
        · subst hke
          exact Or.inr rfl
        · rw [if_neg hke] at h
          simp at h
    · exact hcl
  · intro hk
    have hc := hcl hk
    refine ⟨?_, ?_, ?_, ?_, ?_⟩
    · simp [run_extractor, hc]
    · simp [run_structurer, hc]
    · simp [run_summarizer, hc]
    · simp [run_validator, hc]
    · simp [run_pipeline, run_extractor, hc]

/-- Witness for C10: with the key unset the extractor raises before any
chat call. -/
theorem api_key_required_spec_witness :
    (noKeyEnv.apiKey = none ∨ noKeyEnv.apiKey = some "") ∧
    run_extractor noKeyEnv {} "doc" =
      (.error (.valueError "OPENAI_API_KEY is not set."), 0) := by
  refine ⟨Or.inl rfl, ?_⟩
  exact ((api_key_required_spec noKeyEnv {} "doc" .jnull .jnull .jnull).2
    (Or.inl rfl)).1

end DocAgent
